import Mathlib

/-!
# Verification of the LinuxUARTProtocol framing contract

The repository `UARTProtocolLinux` consists of a single C++ header,
`src/include/UARTProtocol.h`, declaring the class `LinuxUARTProtocol`
(its configuration struct `protocol_config`, the frame send/receive
primitives and teardown).  The header carries only declarations and doc
comments; the member-function bodies are not part of the supplied
sources.  Accordingly, the behavioural definitions below are modelled
from the specification's words (each such definition says so in its doc
comment), while the configuration struct, its default values, and the
declared signatures of the primitives are embedded directly from the
header file.

Bytes are modelled as natural numbers (the C++ quantities are `uint8_t`,
so every concretely representable value lies in 0..255; theorems are
stated over all naturals, which subsumes the representable range).  The
wire is a list of bytes in transmission order.
-/

/-- Configuration structure, embedded from `struct protocol_config` in
`src/include/UARTProtocol.h`, with the same default values. -/
structure protocol_config where
  device : String := "/dev/ttyUSB0"
  baudRate : Int := 115200
  bufferSize : Nat := 1024
  header : Nat := 0xAA
  maxPacketSize : Nat := 100
deriving Repr, DecidableEq

/-- A single underlying write of one byte appends it to the wire. -/
def writeByte (wire : List Nat) (b : Nat) : List Nat :=
  wire ++ [b]

/-- Writing a sequence of bytes is the byte-wise write loop. -/
def writeBytes (wire : List Nat) (bs : List Nat) : List Nat :=
  bs.foldl writeByte wire

/-- Modelled from the spec: the body of `LinuxUARTProtocol::SendCommand`
is absent from the sources.  "Writes exactly two bytes: the configured
header byte, then `commandType`. No payload."  The result is the wire
after the two writes. -/
def SendCommand (cfg : protocol_config) (wire : List Nat) (commandType : Nat) :
    List Nat :=
  writeByte (writeByte wire cfg.header) commandType

/-- Modelled from the spec: the body of `LinuxUARTProtocol::SendData`
is absent from the sources.  "Writes: header byte, `length` byte, then
`length` raw payload bytes", verbatim, no escaping, no checksum.
"`length` must not exceed `maxPacketSize` from configuration"; following
the spec's stated policy choice, an oversized request is refused:
nothing is written and `none` is returned. -/
def SendData (cfg : protocol_config) (wire : List Nat) (data : List Nat)
    (length : Nat) : Option (List Nat) :=
  if length ≤ cfg.maxPacketSize then
    some (writeBytes (writeByte (writeByte wire cfg.header) length)
      (data.take length))
  else
    none

/-- Modelled from the spec: the body of the blocking
`LinuxUARTProtocol::ReadCommand` is absent from the sources.
"Repeatedly read one byte; discard bytes until a byte equal to the
configured header is observed; then read exactly one more byte and store
it as `commandType`."  The incoming stream is the list of bytes still to
be delivered; `none` models failure (stream ended before a complete
header+command pair). -/
def ReadCommand (cfg : protocol_config) : List Nat → Option Nat
  | [] => none
  | b :: rest =>
    if b = cfg.header then
      match rest with
      | [] => none
      | c :: _ => some c
    else
      ReadCommand cfg rest

/-- Modelled from the spec: the body of `LinuxUARTProtocol::ReadData`
is absent from the sources.  "Same header-resynchronization step, then
reads one length byte, then reads exactly that many payload bytes into
`data`, up to the caller-supplied `length` capacity.  If the received
length byte exceeds the caller's buffer capacity, the call must fail
cleanly (`false`)"; a stream ending mid-frame is likewise failure.  The
result pairs the success flag with the bytes written into the caller's
buffer (nothing is written on the failure paths). -/
def ReadData (cfg : protocol_config) (length : Nat) :
    List Nat → Bool × List Nat
  | [] => (false, [])
  | b :: rest =>
    if b = cfg.header then
      match rest with
      | [] => (false, [])
      | n :: rest2 =>
        if n ≤ length then
          if n ≤ rest2.length then (true, rest2.take n) else (false, [])
        else
          (false, [])
    else
      ReadData cfg length rest

theorem writeBytes_eq_append (wire : List Nat) (bs : List Nat) :
    writeBytes wire bs = wire ++ bs := by
  induction bs generalizing wire with
  | nil => simp [writeBytes]
  | cons b bs ih =>
    simp only [writeBytes, List.foldl_cons] at *
    rw [ih, writeByte, List.append_assoc]
    rfl

theorem sendCommand_eq (cfg : protocol_config) (wire : List Nat) (c : Nat) :
    SendCommand cfg wire c = wire ++ [cfg.header, c] := by
  simp [SendCommand, writeByte]

theorem sendData_eq (cfg : protocol_config) (wire : List Nat) (data : List Nat)
    (length : Nat) (h : length ≤ cfg.maxPacketSize) :
    SendData cfg wire data length
      = some (wire ++ cfg.header :: length :: data.take length) := by
  simp [SendData, h, writeBytes_eq_append, writeByte]

/-- C2: `SendCommand(c)` writes exactly two bytes to the link, in order:
first the configured header byte, then `c`, and nothing else for that
frame — the wire grows by exactly the two-byte list `[header, c]`. -/
theorem C2_sendCommand_two_bytes (cfg : protocol_config) (wire : List Nat)
    (c : Nat) :
    SendCommand cfg wire c = wire ++ [cfg.header, c]
      ∧ (SendCommand cfg wire c).length = wire.length + 2 := by
  refine ⟨sendCommand_eq cfg wire c, ?_⟩
  rw [sendCommand_eq]
  simp

/-- C3: for `length` within the allowed bound, `SendData(data, length)`
writes, in order: the configured header byte, the length byte, then the
first `length` bytes of `data` verbatim — nothing else (no escaping, no
checksum) is appended. -/
theorem C3_sendData_frame (cfg : protocol_config) (wire : List Nat)
    (data : List Nat) (length : Nat) (h : length ≤ cfg.maxPacketSize) :
    SendData cfg wire data length
      = some (wire ++ cfg.header :: length :: data.take length) :=
  sendData_eq cfg wire data length h

theorem C3_sendData_frame_witness :
    (3 : Nat) ≤ protocol_config.maxPacketSize {}
      ∧ SendData {} [] [1, 2, 3] 3 = some [0xAA, 3, 1, 2, 3] :=
  ⟨by decide, C3_sendData_frame {} [] [1, 2, 3] 3 (by decide)⟩

/-- C7: a `SendData` request whose `length` strictly exceeds the
configured `maxPacketSize` is refused: the call returns `none` and the
oversized payload is never transmitted as a frame. -/
theorem C7_sendData_oversized_refused (cfg : protocol_config)
    (wire : List Nat) (data : List Nat) (length : Nat)
    (h : cfg.maxPacketSize < length) :
    SendData cfg wire data length = none := by
  simp [SendData, Nat.not_le_of_lt h]

theorem C7_sendData_oversized_refused_witness :
    protocol_config.maxPacketSize {} < 101
      ∧ SendData {} [] (List.replicate 101 7) 101 = none :=
  ⟨by decide, C7_sendData_oversized_refused {} [] (List.replicate 101 7) 101
    (by decide)⟩

/-- C4: `ReadCommand` applied to a stream of arbitrary leading bytes none
equal to the header, followed by the header byte and a byte `b`, discards
the leading bytes, stores `b` as the command type and succeeds. -/
theorem C4_readCommand_resync (cfg : protocol_config) (noise : List Nat)
    (b : Nat) (rest : List Nat) (hn : ∀ x ∈ noise, x ≠ cfg.header) :
    ReadCommand cfg (noise ++ cfg.header :: b :: rest) = some b := by
  induction noise with
  | nil => simp [ReadCommand]
  | cons x xs ih =>
    have hx : x ≠ cfg.header := hn x (List.mem_cons_self x xs)
    simp only [List.cons_append, ReadCommand, if_neg hx]
    exact ih fun y hy => hn y (List.mem_cons_of_mem x hy)

theorem C4_readCommand_resync_witness :
    (∀ x ∈ [0x00, 0x11], x ≠ protocol_config.header {})
      ∧ ReadCommand {} [0x00, 0x11, 0xAA, 0x05] = some 0x05 :=
  ⟨by decide, C4_readCommand_resync {} [0x00, 0x11] 0x05 [] (by decide)⟩

/-- C1: for any payload `p` with `p.length ≤ maxPacketSize`, sending
`p` with `SendData(p, p.length)` and reading the resulting byte stream
with `ReadData` (caller capacity `p.length`) succeeds and yields back
exactly the bytes of `p` — including when `p` contains bytes equal to the
configured header byte, since the explicit payload length prevents any
mid-payload resynchronization. -/
theorem C1_data_roundtrip (cfg : protocol_config) (p : List Nat)
    (h : p.length ≤ cfg.maxPacketSize) :
    ∃ frame, SendData cfg [] p p.length = some frame
      ∧ ReadData cfg p.length frame = (true, p) := by
  refine ⟨cfg.header :: p.length :: p, ?_, ?_⟩
  · have := sendData_eq cfg [] p p.length h
    simpa using this
  · simp [ReadData]

theorem C1_data_roundtrip_witness :
    ([0xAA, 5, 0xAA] : List Nat).length ≤ protocol_config.maxPacketSize {}
      ∧ ∃ frame, SendData {} [] [0xAA, 5, 0xAA] 3 = some frame
          ∧ ReadData {} 3 frame = (true, [0xAA, 5, 0xAA]) :=
  ⟨by decide, C1_data_roundtrip {} [0xAA, 5, 0xAA] (by decide)⟩

/-- C5: if the received length byte `n` of an incoming data frame exceeds
the caller's buffer capacity, `ReadData` fails (`false`) and writes no
byte into the caller's buffer — in particular no byte beyond its
capacity. -/
theorem C5_readData_capacity_guard (cfg : protocol_config)
    (noise : List Nat) (hn : ∀ x ∈ noise, x ≠ cfg.header)
    (capacity n : Nat) (hcap : capacity < n) (payload : List Nat) :
    ReadData cfg capacity (noise ++ cfg.header :: n :: payload)
      = (false, []) := by
  induction noise with
  | nil => simp [ReadData, Nat.not_le_of_lt hcap]
  | cons x xs ih =>
    have hx : x ≠ cfg.header := hn x (List.mem_cons_self x xs)
    simp only [List.cons_append, ReadData, if_neg hx]
    exact ih fun y hy => hn y (List.mem_cons_of_mem x hy)

theorem C5_readData_capacity_guard_witness :
    (∀ x ∈ ([] : List Nat), x ≠ protocol_config.header {}) ∧ 2 < 5
      ∧ ReadData {} 2 [0xAA, 5, 1, 2, 3, 4, 5] = (false, []) :=
  ⟨by decide, by decide,
    C5_readData_capacity_guard {} [] (by decide) 2 5 (by decide)
      [1, 2, 3, 4, 5]⟩

/-- Modelled from the spec: the body of the timeout-bounded
`LinuxUARTProtocol::ReadCommand(commandType, timeout)` is absent from the
sources.  Per the spec it is "an internal poll loop with its own
elapsed-time accounting, using the device-level setting only as the poll
granularity": each poll attempt consumes `tick` milliseconds (the
device-level read timeout); `attempts k` is the byte delivered by the
`k`-th attempt (`none` = nothing arrived during that attempt).  The loop
returns `false` once the elapsed time exceeds `timeout` without a
complete header+command pair, and `true` as soon as a byte is read after
the header was observed.  `fuel` bounds the recursion; the wrapper below
supplies enough fuel that, for positive `tick`, exhaustion is
unreachable before the time budget expires. -/
def readCommandPoll (cfg : protocol_config) (attempts : Nat → Option Nat)
    (timeout tick : Nat) : Nat → Nat → Nat → Bool → Bool × Nat
  | 0, _, elapsed, _ => (false, elapsed)
  | fuel + 1, k, elapsed, seenHeader =>
    if timeout < elapsed then
      (false, elapsed)
    else
      match attempts k with
      | none =>
        readCommandPoll cfg attempts timeout tick fuel (k + 1)
          (elapsed + tick) seenHeader
      | some b =>
        if seenHeader then
          (true, elapsed + tick)
        else if b = cfg.header then
          readCommandPoll cfg attempts timeout tick fuel (k + 1)
            (elapsed + tick) true
        else
          readCommandPoll cfg attempts timeout tick fuel (k + 1)
            (elapsed + tick) false

/-- The bounded read: poll from attempt 0 with zero elapsed time and the
header not yet seen.  The result pairs the success flag with the elapsed
time at return. -/
def ReadCommandTimeout (cfg : protocol_config) (attempts : Nat → Option Nat)
    (timeout tick : Nat) : Bool × Nat :=
  readCommandPoll cfg attempts timeout tick (timeout / tick + 2) 0 0 false

theorem readCommandPoll_never_pair (cfg : protocol_config)
    (attempts : Nat → Option Nat) (timeout tick : Nat)
    (hstream : ∀ j k, j < k → attempts j = some cfg.header →
      attempts k = none) :
    ∀ fuel k elapsed s,
      (s = true → ∃ j, j < k ∧ attempts j = some cfg.header) →
      elapsed ≤ timeout + tick →
      timeout < elapsed + fuel * tick →
      ∃ e, readCommandPoll cfg attempts timeout tick fuel k elapsed s
          = (false, e)
        ∧ timeout < e ∧ e ≤ timeout + tick := by
  intro fuel
  induction fuel with
  | zero =>
    intro k elapsed s _ hub hlb
    simp only [Nat.zero_mul, Nat.add_zero] at hlb
    exact ⟨elapsed, rfl, hlb, hub⟩
  | succ n ih =>
    intro k elapsed s hinv hub hlb
    by_cases hto : timeout < elapsed
    · exact ⟨elapsed, by simp [readCommandPoll, hto], hto, hub⟩
    · have hel : elapsed ≤ timeout := Nat.le_of_not_lt hto
      have hub2 : elapsed + tick ≤ timeout + tick := Nat.add_le_add_right hel tick
      have hlb2 : timeout < elapsed + tick + n * tick := by
        have : elapsed + (n + 1) * tick = elapsed + tick + n * tick := by ring
        rw [← this]
        exact hlb
      cases hatt : attempts k with
      | none =>
        obtain ⟨e, he, h1, h2⟩ :=
          ih (k + 1) (elapsed + tick) s
            (fun hs => (hinv hs).elim fun j hj =>
              ⟨j, Nat.lt_succ_of_lt hj.1, hj.2⟩)
            hub2 hlb2
        exact ⟨e, by simp [readCommandPoll, hto, hatt, he], h1, h2⟩
      | some b =>
        have hsf : s = false := by
          cases s with
          | false => rfl
          | true =>
            obtain ⟨j, hjk, hj⟩ := hinv rfl
            rw [hstream j k hjk hj] at hatt
            exact absurd hatt (by simp)
        subst hsf
        by_cases hb : b = cfg.header
        · obtain ⟨e, he, h1, h2⟩ :=
            ih (k + 1) (elapsed + tick) true
              (fun _ => ⟨k, Nat.lt_succ_self k, by rw [hatt, hb]⟩)
              hub2 hlb2
          exact ⟨e, by simp [readCommandPoll, hto, hatt, hb, he], h1, h2⟩
        · obtain ⟨e, he, h1, h2⟩ :=
            ih (k + 1) (elapsed + tick) false (by simp) hub2 hlb2
          exact ⟨e, by simp [readCommandPoll, hto, hatt, hb, he], h1, h2⟩

/-- C6: for any positive poll granularity `tick` and any incoming stream
that never yields a complete header-plus-command pair (after any attempt
delivering the header byte, no later attempt delivers a byte — this
covers in particular total silence), the bounded `ReadCommand` returns
`false`, never `true`, with an elapsed time strictly greater than
`timeout` (it does not give up early) yet at most `timeout + tick` (it
does not wait unboundedly: one poll granularity past the budget at
worst). -/
theorem C6_bounded_read_times_out (cfg : protocol_config)
    (attempts : Nat → Option Nat) (timeout tick : Nat) (htick : 0 < tick)
    (hstream : ∀ j k, j < k → attempts j = some cfg.header →
      attempts k = none) :
    ∃ e, ReadCommandTimeout cfg attempts timeout tick = (false, e)
      ∧ timeout < e ∧ e ≤ timeout + tick := by
  have hmod : timeout % tick < tick := Nat.mod_lt timeout htick
  have hdiv : tick * (timeout / tick) + timeout % tick = timeout :=
    Nat.div_add_mod timeout tick
  have hfuel : timeout < 0 + (timeout / tick + 2) * tick := by
    rw [Nat.zero_add, Nat.add_mul, Nat.mul_comm]
    calc timeout = tick * (timeout / tick) + timeout % tick := hdiv.symm
    _ < tick * (timeout / tick) + 2 * tick := by
        refine Nat.add_lt_add_left ?_ _
        calc timeout % tick < tick := hmod
        _ ≤ 2 * tick := by omega
  exact readCommandPoll_never_pair cfg attempts timeout tick hstream
    (timeout / tick + 2) 0 0 false (by simp) (Nat.le_add_left 0 _) hfuel

theorem C6_bounded_read_times_out_witness :
    (0 : Nat) < 50
      ∧ (∀ j k : Nat, j < k → (fun _ => (none : Option Nat)) j
          = some (protocol_config.header {}) →
          (fun _ => (none : Option Nat)) k = none)
      ∧ ∃ e, ReadCommandTimeout {} (fun _ => none) 200 50 = (false, e)
          ∧ 200 < e ∧ e ≤ 200 + 50 :=
  ⟨by decide, fun j k _ h => by simp at h,
    C6_bounded_read_times_out {} (fun _ => none) 200 50 (by decide)
      (fun j k _ h => by simp at h)⟩

/-- A C++ return type, as it appears in the declarations of
`src/include/UARTProtocol.h`. -/
inductive CppReturnType where
  | voidTy : CppReturnType
  | boolTy : CppReturnType
deriving DecidableEq, Repr

/-- The read/write primitives declared by `class LinuxUARTProtocol`. -/
inductive LinkPrimitive where
  | sendCommand : LinkPrimitive
  | sendData : LinkPrimitive
  | readCommand : LinkPrimitive
  | readCommandTimeout : LinkPrimitive
  | readData : LinkPrimitive
  | readDataTimeout : LinkPrimitive
deriving DecidableEq, Repr

/-- Declared return type of each primitive, embedded from
`src/include/UARTProtocol.h`:
`void SendCommand(const uint8_t &commandType)`;
`void SendData(const uint8_t *data, const uint8_t length)`;
`bool ReadCommand(uint8_t &commandType)`;
`bool ReadCommand(uint8_t &commandType, uint32_t timeout)`;
`bool ReadData(uint8_t *data, uint8_t length)`;
`bool ReadData(uint8_t *data, uint8_t length, uint32_t timeout)`. -/
def declaredReturnType : LinkPrimitive → CppReturnType
  | .sendCommand => .voidTy
  | .sendData => .voidTy
  | .readCommand => .boolTy
  | .readCommandTimeout => .boolTy
  | .readData => .boolTy
  | .readDataTimeout => .boolTy

/-- A primitive reports failure to its caller through its result exactly
when its declared return type is `bool`; none of the declared parameters
of any primitive is an error out-parameter (the out-parameters are the
received command byte and the data buffer), so the return type is the
only error channel the interface offers. -/
def reportsFailureToCaller (p : LinkPrimitive) : Bool :=
  declaredReturnType p == CppReturnType.boolTy

/-- C8 counterexample: `SendCommand` is declared `void` in
`src/include/UARTProtocol.h`, so a failed underlying write during
`SendCommand` is not observable by the caller as an error result —
refuting the claim that every read and write primitive reports failure
via a boolean or explicit error value. -/
theorem C8_counterexample :
    reportsFailureToCaller LinkPrimitive.sendCommand = false
      ∧ declaredReturnType LinkPrimitive.sendCommand
          = CppReturnType.voidTy := by
  decide

/-- C8 (amended): the read primitives — `ReadCommand` and `ReadData`, in
both blocking and timeout-bounded variants — report failure to the
caller via their boolean return value; the write primitives
`SendCommand` and `SendData` are declared `void`, so a failed underlying
write is not observable by the caller as an error result. -/
theorem C8_failure_reporting :
    ∀ p : LinkPrimitive,
      reportsFailureToCaller p = true
        ↔ (p = LinkPrimitive.readCommand
            ∨ p = LinkPrimitive.readCommandTimeout
            ∨ p = LinkPrimitive.readData
            ∨ p = LinkPrimitive.readDataTimeout) := by
  intro p
  cases p <;> decide

/-- Runtime link state of one `LinuxUARTProtocol` instance: the open
serial file descriptor (`serial_fd`), or `none` when not open. -/
structure LinkState where
  fd : Option Nat
deriving DecidableEq, Repr

/-- Modelled from the spec: the body of
`LinuxUARTProtocol::closeConnection` is absent from the sources.
"Releases the device handle. Idempotent: calling it when already closed
is a no-op, not an error."  The result pairs the new state with the list
of OS-level close() calls issued (so a double free would be visible as
the same descriptor closed twice). -/
def closeConnection : LinkState → LinkState × List Nat
  | ⟨some fd⟩ => (⟨none⟩, [fd])
  | ⟨none⟩ => (⟨none⟩, [])

/-- C9: `closeConnection` is idempotent.  From any link state, after one
call the link is closed; a second call in succession is a no-op that
closes no descriptor (no failure, no double free), and calling it on an
already-closed link issues no close at all. -/
theorem C9_close_idempotent (s : LinkState) :
    (closeConnection s).1.fd = none
      ∧ closeConnection (closeConnection s).1 = (⟨none⟩, [])
      ∧ closeConnection ⟨none⟩ = (⟨none⟩, []) := by
  obtain ⟨fd⟩ := s
  cases fd <;> simp [closeConnection]

/-- Per-instance state: the stored configuration and the serial file
descriptor (`serial_fd`), or `none` when no device is open. -/
structure ProtocolState where
  config : protocol_config
  fd : Option Nat
deriving DecidableEq, Repr

/-- Modelled from the spec: the body of the `LinuxUARTProtocol`
constructor is absent from the sources.  Per the header it receives only
the configuration; per the spec the Link is "created not-open", so the
constructor stores the configuration and opens no device. -/
def LinuxUARTProtocol (cfg : protocol_config) : ProtocolState :=
  ⟨cfg, none⟩

/-- Modelled from the spec: the body of `LinuxUARTProtocol::begin` is
absent from the sources.  It opens the device and applies the terminal
attributes; on any failure "no partial state is left open"; re-opening
an already-open instance fails rather than leaking a handle.  The OS
outcome is a parameter: `osFd` is the descriptor granted by open()
(`none` = the open failed) and `configOk` says whether terminal
attribute retrieval/assignment succeeds. -/
def begin (s : ProtocolState) (osFd : Option Nat) (configOk : Bool) :
    ProtocolState × Bool :=
  match s.fd with
  | some _ => (s, false)
  | none =>
    match osFd with
    | none => (s, false)
    | some fd => if configOk then ({ s with fd := some fd }, true) else (s, false)

/-- C10: constructing a `LinuxUARTProtocol` never opens the device — the
instance starts with no serial descriptor; only a successful `begin`
(device opened by the OS and attributes applied) transitions it to the
open state, a failed `begin` leaves it not-open, and `begin` on an
already-open instance fails without replacing the existing descriptor,
so at most one open handle exists per instance at any time. -/
theorem C10_construction_not_open (cfg : protocol_config)
    (osFd : Option Nat) (ok : Bool) :
    (LinuxUARTProtocol cfg).fd = none
      ∧ ((begin (LinuxUARTProtocol cfg) osFd ok).2 = true →
          ∃ fd, osFd = some fd ∧ ok = true
            ∧ (begin (LinuxUARTProtocol cfg) osFd ok).1.fd = some fd)
      ∧ ((begin (LinuxUARTProtocol cfg) osFd ok).2 = false →
          (begin (LinuxUARTProtocol cfg) osFd ok).1.fd = none)
      ∧ (∀ s : ProtocolState, s.fd.isSome → begin s osFd ok = (s, false)) := by
  refine ⟨rfl, ?_, ?_, ?_⟩
  · intro h
    cases osFd with
    | none => simp [begin, LinuxUARTProtocol] at h
    | some fd =>
      cases ok with
      | false => simp [begin, LinuxUARTProtocol] at h
      | true => exact ⟨fd, rfl, rfl, by simp [begin, LinuxUARTProtocol]⟩
  · intro h
    cases osFd with
    | none => simp [begin, LinuxUARTProtocol]
    | some fd =>
      cases ok with
      | false => simp [begin, LinuxUARTProtocol]
      | true => simp [begin, LinuxUARTProtocol] at h
  · intro s hs
    obtain ⟨c, fd⟩ := s
    cases fd with
    | none => simp at hs
    | some fd => simp [begin]
